import Mathlib

/-!
# epoll echo server: a shallow embedding of `server.c` and `test.c`

The C program is a single-threaded echo server driven by `epoll`.  Its
functions are embedded as state-passing Lean functions.  Every system call
the program makes is appended to a trace, and the answers of the operating
system are taken from finite scripts held in the state (one script per
system call, consumed front to back).  A call whose script is used up never
returns; the run then ends with the outcome `blocked`.  A failing `assert`
ends the run with the outcome `aborted`.

Machine integers are `Nat`/`Int` with explicit wrap-around at 32 bits.
Bytes are natural numbers, buffers are lists of bytes.  Diagnostics
(`fprintf`, `perror`) are not part of the model.
-/

namespace EchoServer

/-! ## Constants -/

/-- Descriptor of standard input (`unistd.h`). -/
def STDIN_FILENO : Int := 0

/-- Exit status of `stdlib.h`. -/
def EXIT_SUCCESS : Int := 0

/-- Exit status of `stdlib.h`. -/
def EXIT_FAILURE : Int := 1

/-- Error number of an interrupted system call (`errno.h`, Linux). -/
def EINTR : Int := 4

/-- Readiness bit of `sys/epoll.h`: the descriptor is readable. -/
def EPOLLIN : Nat := 1

/-- Edge-trigger bit of `sys/epoll.h` (`1u << 31`). -/
def EPOLLET : Nat := 2147483648

/-- Size of the message buffer, `test.c:40`. -/
def MSG_LENGTH : Nat := 512

/-- Capacity of the event array, `test.c:41`. -/
def MAX_CLIENTS : Nat := 32

/-- The command `"quit"` of `test.c:43`, as bytes (the terminating zero byte
is implicit: reading past the end of a list yields zero). -/
def cmd_quit : List Nat := [113, 117, 105, 116]

/-- Conversion of an integer to `uint32_t`. -/
def to_uint32 (z : Int) : Nat := (z % 4294967296).toNat

/-- Conversion of an integer to `int32_t`. -/
def to_int32 (z : Int) : Int := (z + 2147483648) % 4294967296 - 2147483648

/-! ## Data model -/

/-- The two fields of `struct epoll_event` the program reads. -/
structure epoll_event where
  events : Nat
  fd : Int
deriving DecidableEq

/-- Answer of the operating system to one system call: success with a value,
or failure with the error number stored in `errno`. -/
inductive SysResult (α : Type) where
  | ok (v : α)
  | fail (errno : Int)
deriving DecidableEq

/-- One entry of the trace: a system call the program made (with its
arguments and, where the program looks at it, its return value) or a store
into a buffer. -/
inductive Call where
  /-- Call `epoll_create1(0)`. -/
  | epoll_create1
  /-- Call `epoll_ctl(epfd, EPOLL_CTL_ADD, fd, &ev)` and its return value. -/
  | epoll_ctl_add (epfd fd ret : Int)
  /-- Call `epoll_ctl(epfd, EPOLL_CTL_DEL, fd, &ev)` and its return value. -/
  | epoll_ctl_del (epfd fd ret : Int)
  /-- Call `epoll_wait(epfd, events, maxevents, -1)` and its return value. -/
  | epoll_wait (epfd : Int) (maxevents : Nat) (ret : Int)
  /-- Call `fgets(msg, size, stdin)`. -/
  | fgets (size : Nat)
  /-- Call `accept(listener, ..)` and its return value. -/
  | accept (listener ret : Int)
  /-- Call `setsockopt(fd, SOL_SOCKET, SO_REUSEADDR, ..)`. -/
  | setsockopt (fd : Int)
  /-- Call `recv(fd, buf, length, 0)` and its return value. -/
  | recv (fd : Int) (length : Int) (ret : Int)
  /-- The store `buf[idx] = 0` into a buffer of `size` bytes. -/
  | store (idx : Int) (size : Nat)
  /-- Call `send(fd, data + offset, len, 0)`: `bytes` are the bytes of the
  buffer that lie in that range, `ret` the return value. -/
  | send (fd : Int) (offset : Nat) (bytes : List Nat) (len : Nat) (ret : Int)
  /-- Call `close(fd)`. -/
  | close (fd : Int)
  /-- Call `free` on the event array. -/
  | free
  /-- Call `freeaddrinfo`. -/
  | freeaddrinfo
deriving DecidableEq

/-- The scripted answers of the operating system, one list per system call. -/
structure World where
  /-- Result of `epoll_create1`. -/
  create : SysResult Int
  /-- Results of `epoll_ctl`. -/
  ctls : List (SysResult Unit)
  /-- Results of `fgets`: `none` for a null result (end of file or error),
  `some line` for the characters read. -/
  lines : List (Option (List Nat))
  /-- Results of `accept`: the new descriptor. -/
  accepts : List (SysResult Int)
  /-- Results of `setsockopt`. -/
  sockopts : List (SysResult Unit)
  /-- Results of `recv`: the bytes received. -/
  recvs : List (SysResult (List Nat))
  /-- Results of `send`: the number of bytes accepted. -/
  sends : List (SysResult Nat)
deriving DecidableEq

/-- The state of a run of `main_loop`. -/
structure State where
  world : World
  /-- The error indicator `errno`. -/
  errno : Int
  /-- The buffer `msg` of `main_loop` (`MSG_LENGTH` bytes).  It is declared
  in the body of the loop `while (true)` without an initial value; the model
  keeps its contents from one round to the next. -/
  msg : List Nat
  /-- The event array `events` of `main` (`MAX_CLIENTS` entries). -/
  events : List epoll_event
  /-- The counter `*cnt` of `main`. -/
  cnt : Int
  /-- The calls made so far, oldest first. -/
  trace : List Call
deriving DecidableEq

/-- How a run ends. -/
inductive Outcome where
  /-- The function `main_loop` returned this value. -/
  | returned (code : Int)
  /-- A system call found its script used up and never returned. -/
  | blocked
  /-- An `assert` failed. -/
  | aborted
deriving DecidableEq

/-- Result of a piece of code: it ran to its end with a value, or the run
ended inside it. -/
inductive Res (α : Type) where
  | val (a : α) (s : State)
  | halt (o : Outcome) (s : State)
deriving DecidableEq

/-- Append one call to the trace. -/
def State.log (s : State) (c : Call) : State :=
  { s with trace := s.trace ++ [c] }

/-! ## Buffers and strings -/

/-- The bytes of a buffer in the range `[offset, offset + len)`, as far as
they lie inside the buffer. -/
def window (data : List Nat) (offset len : Nat) : List Nat :=
  (data.drop offset).take len

/-- Overwrite the front of an array with `xs`; entries that would fall
behind the end of the array are not stored in it. -/
def store_front {α : Type} (buf : List α) (xs : List α) : List α :=
  (xs ++ buf.drop xs.length).take buf.length

/-- The store `buf[idx] = v`; a store outside the buffer leaves the buffer
as it is (it hits memory the model does not track). -/
def store_at (buf : List Nat) (idx : Int) (v : Nat) : List Nat :=
  if 0 ≤ idx then buf.set idx.toNat v else buf

/-- The function `strncmp` of `string.h`: compares at most `n` characters
and stops behind a zero byte. -/
def strncmp : List Nat → List Nat → Nat → Int
  | _, _, 0 => 0
  | s1, s2, n + 1 =>
    if s1.headD 0 ≠ s2.headD 0 then (s1.headD 0 : Int) - (s2.headD 0 : Int)
    else if s1.headD 0 = 0 then 0
    else strncmp s1.tail s2.tail n

/-- The function `strlen` of `string.h`. -/
def strlen : List Nat → Nat
  | [] => 0
  | c :: cs => if c = 0 then 0 else strlen cs + 1

/-! ## `server.c` -/

/-- Result of the loop of `send_data`. -/
structure SendLoop where
  /-- A `send` found its script used up. -/
  blocked : Bool
  total : Nat
  bytes : Int
  errno : Int
  calls : List Call
  rest : List (SysResult Nat)
deriving DecidableEq

/-- The loop `while (total < *len)` of `send_data`, `server.c:61-67`.  The
list is the script of `send` results; `total` and `remain` are `uint32_t`,
`bytes` is the last return value of `send` (an `int32_t`). -/
def send_loop (sockfd : Int) (data : List Nat) (len : Nat) :
    List (SysResult Nat) → Nat → Nat → Int → Int → List Call → SendLoop
  | [], total, _, bytes, errno, calls =>
    ⟨decide (total < len), total, bytes, errno, calls, []⟩
  | o :: rest, total, remain, bytes, errno, calls =>
    if total < len then
      match o with
      | .fail e =>
        ⟨false, total, -1, e,
          calls ++ [Call.send sockfd total (window data total remain) remain (-1)], rest⟩
      | .ok k =>
        if to_int32 k = -1 then
          ⟨false, total, -1, errno,
            calls ++ [Call.send sockfd total (window data total remain) remain (-1)], rest⟩
        else
          send_loop sockfd data len rest
            (to_uint32 (total + to_int32 k))
            (to_uint32 (remain - to_int32 k))
            (to_int32 k) errno
            (calls ++ [Call.send sockfd total (window data total remain) remain (to_int32 k)])
    else ⟨false, total, bytes, errno, calls, o :: rest⟩

/-- The function `send_data`, `server.c:49-72`.  The argument `len` is the
value of `*len` at entry; the result is the return value and the value of
`*len` at exit. -/
def send_data (sockfd : Int) (data : List Nat) (len : Nat) (s : State) :
    Res (Int × Nat) :=
  let r := send_loop sockfd data len s.world.sends 0 len (-1) s.errno []
  let s1 : State :=
    { s with world := { s.world with sends := r.rest }, errno := r.errno,
             trace := s.trace ++ r.calls }
  if r.blocked then Res.halt Outcome.blocked s1
  else Res.val (if r.bytes = -1 then -1 else 0, r.total) s1

/-- The function `nonblock`, `server.c:74-83`. -/
def nonblock (sockfd : Int) (s : State) : Res Unit :=
  if ¬ (sockfd > 0) then Res.halt Outcome.aborted s
  else
    match s.world.sockopts with
    | [] => Res.halt Outcome.blocked s
    | o :: rest =>
      let s1 : State :=
        ({ s with world := { s.world with sockopts := rest } }).log (Call.setsockopt sockfd)
      match o with
      | .ok _ => Res.val () s1
      | .fail e => Res.val () { s1 with errno := e }

/-- The function `accept_client`, `server.c:137-161`. -/
def accept_client (listener : Int) (s : State) : Res Int :=
  if ¬ (listener > 0) then Res.halt Outcome.aborted s
  else
    match s.world.accepts with
    | [] => Res.halt Outcome.blocked s
    | o :: rest =>
      let s1 : State := { s with world := { s.world with accepts := rest } }
      match o with
      | .fail e => Res.val (-1) ({ s1 with errno := e }.log (Call.accept listener (-1)))
      | .ok clientfd =>
        if clientfd = -1 then Res.val (-1) (s1.log (Call.accept listener (-1)))
        else
          match nonblock clientfd (s1.log (Call.accept listener clientfd)) with
          | .halt o s2 => Res.halt o s2
          | .val _ s2 => Res.val clientfd s2

/-- The function `recv_data`, `server.c:163-175`.  The result is the return
value and the contents of `buf` at exit.  The bytes `recv` obtained are
written to the front of `buf`; then `buf[bytes] = 0` is stored. -/
def recv_data (sockfd : Int) (buf : List Nat) (length : Int) (s : State) :
    Res (Int × List Nat) :=
  if length = 0 then Res.halt Outcome.aborted s
  else
    match s.world.recvs with
    | [] => Res.halt Outcome.blocked s
    | o :: rest =>
      let s1 : State := { s with world := { s.world with recvs := rest } }
      match o with
      | .fail e =>
        let bytes : Int := -1
        let s2 := { s1 with errno := e }.log (Call.recv sockfd length bytes)
        Res.val (bytes, store_at buf bytes 0) (s2.log (Call.store bytes buf.length))
      | .ok bs =>
        let got := bs.take (length % 18446744073709551616).toNat
        let bytes : Int := to_int32 got.length
        let s2 := s1.log (Call.recv sockfd length bytes)
        Res.val (bytes, store_at (store_front buf got) bytes 0)
          (s2.log (Call.store bytes buf.length))

/-- The function `clean`, `server.c:177-190`.  The array `equeue` is `none`
for a null pointer.  The result is the list of calls made.  The loop index
`idx` is not used by the loop body: every round closes `equeue->data.fd`,
the descriptor of the first entry. -/
def clean (equeue : Option (List epoll_event)) (cnt : Int) : List Call :=
  (match equeue with
    | none => []
    | some q =>
      if cnt > 0 then
        (List.range cnt.toNat).map (fun _ => Call.close (q.headD ⟨0, 0⟩).fd)
      else [])
  ++ [Call.free, Call.freeaddrinfo]

/-- The function `create_epoll`, `server.c:194-205`. -/
def create_epoll (s : State) : Int × State :=
  let s1 := s.log Call.epoll_create1
  match s.world.create with
  | .fail e => (EXIT_FAILURE, { s1 with errno := e })
  | .ok epfd => if epfd = -1 then (EXIT_FAILURE, s1) else (epfd, s1)

/-- The function `add_client`, `server.c:207-224`. -/
def add_client (epfd socketfd : Int) (s : State) : Res Int :=
  if ¬ (epfd > 0) then Res.halt Outcome.aborted s
  else
    match s.world.ctls with
    | [] => Res.halt Outcome.blocked s
    | o :: rest =>
      let s1 : State := { s with world := { s.world with ctls := rest } }
      match o with
      | .ok _ => Res.val 0 (s1.log (Call.epoll_ctl_add epfd socketfd 0))
      | .fail e =>
        Res.val (-1) ({ s1 with errno := e }.log (Call.epoll_ctl_add epfd socketfd (-1)))

/-- The function `remove_client`, `server.c:226-242`. -/
def remove_client (epfd socketfd : Int) (s : State) : Res Int :=
  if ¬ (epfd > 0) then Res.halt Outcome.aborted s
  else if ¬ (socketfd > 0) then Res.halt Outcome.aborted s
  else
    match s.world.ctls with
    | [] => Res.halt Outcome.blocked s
    | o :: rest =>
      let s1 : State := { s with world := { s.world with ctls := rest } }
      match o with
      | .ok _ => Res.val 0 (s1.log (Call.epoll_ctl_del epfd socketfd 0))
      | .fail e =>
        Res.val (-1) ({ s1 with errno := e }.log (Call.epoll_ctl_del epfd socketfd (-1)))

/-! ## `test.c` -/

/-- The test `(events[e].events & EPOLLIN) || (events[e].events & EPOLLET)`,
`test.c:113`. -/
def readable (ev : epoll_event) : Bool :=
  (ev.events &&& EPOLLIN != 0) || (ev.events &&& EPOLLET != 0)

/-- The block "Handling stdin command for normal quit", `test.c:117-123`:
for the descriptor of standard input a line is read into `msg` with `fgets`
(at most `MSG_LENGTH - 1` characters and a zero byte; a null result leaves
`msg` as it is) and `main_loop` returns `EXIT_SUCCESS` when `msg` starts
with `cmd_quit`.  For every other descriptor nothing happens. -/
def stdin_command (ev : epoll_event) (s : State) : Res Unit :=
  if ev.fd = STDIN_FILENO then
    match s.world.lines with
    | [] => Res.halt Outcome.blocked s
    | l :: rest =>
      let msg1 :=
        match l with
        | none => s.msg
        | some line => store_front s.msg (line.take (MSG_LENGTH - 1) ++ [0])
      let s1 : State :=
        ({ s with world := { s.world with lines := rest }, msg := msg1 }).log
          (Call.fgets MSG_LENGTH)
      if strncmp s1.msg cmd_quit (strlen cmd_quit) = 0 then
        Res.halt (Outcome.returned EXIT_SUCCESS) s1
      else Res.val () s1
  else Res.val () s

/-- The block "Handling clients queries", `test.c:127-158`: the listener
accepts and watches a client; every other descriptor is received from and
echoed to. -/
def client_query (listener epfd : Int) (ev : epoll_event) (s : State) : Res Unit :=
  if ev.fd = listener then
    match accept_client listener s with
    | .halt o s1 => Res.halt o s1
    | .val clientfd s1 =>
      if clientfd = -1 then Res.halt (Outcome.returned EXIT_FAILURE) s1
      else
        match add_client epfd clientfd s1 with
        | .halt o s2 => Res.halt o s2
        | .val r s2 =>
          if r ≠ 0 then Res.halt (Outcome.returned EXIT_FAILURE) s2 else Res.val () s2
  else
    match recv_data ev.fd s.msg MSG_LENGTH s with
    | .halt o s1 => Res.halt o s1
    | .val (bytes, msg1) s1 =>
      let s2 : State := { s1 with msg := msg1 }
      if bytes = 0 then
        match remove_client epfd ev.fd s2 with
        | .halt o s3 => Res.halt o s3
        | .val _ s3 => Res.val () s3
      else
        match send_data ev.fd s2.msg (to_uint32 bytes) s2 with
        | .halt o s3 => Res.halt o s3
        | .val _ s3 => Res.val () s3

/-- The body of the loop over the events, `test.c:113-159`. -/
def handle_event (listener epfd : Int) (ev : epoll_event) (s : State) : Res Unit :=
  if readable ev then
    match stdin_command ev s with
    | .halt o s1 => Res.halt o s1
    | .val _ s1 => client_query listener epfd ev s1
  else Res.val () s

/-- The loop `for (e = 0; e < *cnt; ++e)`, `test.c:112-160`, over the
entries `events[0] .. events[*cnt - 1]`. -/
def for_events (listener epfd : Int) : List epoll_event → State → Res Unit
  | [], s => Res.val () s
  | ev :: rest, s =>
    match handle_event listener epfd ev s with
    | .halt o s1 => Res.halt o s1
    | .val _ s1 => for_events listener epfd rest s1

/-- The call `*cnt = epoll_wait(epfd, events, MAX_CLIENTS, -1)`, `test.c:99`:
on success the ready events are written to the front of `events` and their
number is the result, `errno` is left as it is; on failure the result is
`-1` and `errno` is set. -/
def epoll_wait (epfd : Int) (w : SysResult (List epoll_event)) (s : State) : State :=
  match w with
  | .ok evs =>
    let got := evs.take MAX_CLIENTS
    ({ s with events := store_front s.events got, cnt := got.length }).log
      (Call.epoll_wait epfd MAX_CLIENTS got.length)
  | .fail e =>
    ({ s with cnt := -1, errno := e }).log (Call.epoll_wait epfd MAX_CLIENTS (-1))

/-- The loop `while (true)`, `test.c:98-161`.  The list is the script of
`epoll_wait` results; when it is used up the wait never returns. -/
def while_loop (listener epfd : Int) :
    List (SysResult (List epoll_event)) → State → Outcome × State
  | [], s => (Outcome.blocked, s)
  | w :: waits, s =>
    let s1 := epoll_wait epfd w s
    if s1.errno = EINTR then while_loop listener epfd waits s1
    else if s1.cnt = -1 then (Outcome.returned EXIT_FAILURE, s1)
    else
      match for_events listener epfd (s1.events.take s1.cnt.toNat) s1 with
      | .halt o s2 => (o, s2)
      | .val _ s2 => while_loop listener epfd waits s2

/-- The function `main_loop`, `test.c:82-162`. -/
def main_loop (listener : Int) (waits : List (SysResult (List epoll_event)))
    (s : State) : Outcome × State :=
  if ¬ (listener > 0) then (Outcome.aborted, s)
  else
    match create_epoll s with
    | (epfd, s1) =>
      match add_client epfd STDIN_FILENO s1 with
      | .halt o s2 => (o, s2)
      | .val r s2 =>
        if r ≠ 0 then (Outcome.returned EXIT_FAILURE, s2)
        else
          match add_client epfd listener s2 with
          | .halt o s3 => (o, s3)
          | .val r s3 =>
            if r ≠ 0 then (Outcome.returned EXIT_FAILURE, s3)
            else while_loop listener epfd waits s3

/-- The end of `main`, `test.c:71-79`: the event array is allocated zeroed,
`main_loop` runs, and `clean` gets the array and the counter.  The result
is the outcome of `main_loop` and the calls `clean` makes after it has
returned. -/
def main_tail (listener : Int) (waits : List (SysResult (List epoll_event)))
    (s : State) : Outcome × List Call :=
  let s0 : State := { s with cnt := 0, events := List.replicate MAX_CLIENTS ⟨0, 0⟩ }
  match main_loop listener waits s0 with
  | (Outcome.returned c, s1) => (Outcome.returned c, clean (some s1.events) s1.cnt)
  | (o, _) => (o, [])

/-! ## Reading the trace -/

/-- The bytes the successful `send` calls of a trace delivered to `fd`: of
every such call the first `ret` bytes of its range, in order. -/
def echoed (fd : Int) : List Call → List Nat
  | [] => []
  | Call.send fd1 _ bytes _ ret :: cs =>
    if fd1 = fd ∧ 0 ≤ ret then bytes.take ret.toNat ++ echoed fd cs else echoed fd cs
  | _ :: cs => echoed fd cs

/-- The descriptors passed to `close`, in order. -/
def closed : List Call → List Int
  | [] => []
  | Call.close fd :: cs => fd :: closed cs
  | _ :: cs => closed cs

/-- The indexes of the stores into a buffer that fall outside it. -/
def stray_stores : List Call → List Int
  | [] => []
  | Call.store idx size :: cs =>
    if 0 ≤ idx ∧ idx < size then stray_stores cs else idx :: stray_stores cs
  | _ :: cs => stray_stores cs

/-- The bytes of a string. -/
def bytes_of (str : String) : List Nat := str.toList.map Char.toNat

/-- A state at the start of a run: empty trace, zeroed buffers, `errno` 0. -/
def initial (w : World) : State :=
  { world := w, errno := 0, msg := List.replicate MSG_LENGTH 0,
    events := List.replicate MAX_CLIENTS ⟨0, 0⟩, cnt := 0, trace := [] }

/-! ## Reading results, and the worlds of the examples -/

/-- The state in which a piece of code ended. -/
def Res.state {α : Type} : Res α → State
  | Res.val _ s => s
  | Res.halt _ s => s

/-- The call is a `send` to `fd`. -/
def Call.is_send_to (fd : Int) : Call → Bool
  | Call.send fd1 _ _ _ _ => fd1 == fd
  | _ => false

/-- The successful `send` attempts `ks` fit a message of `n` bytes: each
accepts at least one byte and at most what remains, and together they
accept `n` bytes. -/
def fits : Nat → List Nat → Bool
  | n, [] => n == 0
  | n, k :: ks => decide (1 ≤ k) && decide (k ≤ n) && fits (n - k) ks

/-- A world in which a client sends `hello` and two `send` attempts accept 2
and 3 bytes. -/
def hello_world : World :=
  { create := .ok 4, ctls := [.ok (), .ok (), .ok ()], lines := [], accepts := [],
    sockopts := [], recvs := [.ok (bytes_of "hello")], sends := [.ok 2, .ok 3] }

/-- A world in which the operator types the given line and a client sends
`hi`, echoed in one piece. -/
def typed_world (line : String) : World :=
  { create := .ok 4, ctls := [.ok (), .ok (), .ok ()], lines := [some (bytes_of line)],
    accepts := [], sockopts := [], recvs := [.ok (bytes_of "hi")], sends := [.ok 2] }

/-- A world in which a client sends the four bytes `quit`, echoed in one
piece, and `fgets` on standard input reads nothing (end of file: a null
result). -/
def stale_quit_world : World :=
  { create := .ok 4, ctls := [.ok (), .ok (), .ok ()], lines := [none], accepts := [],
    sockopts := [], recvs := [.ok (bytes_of "quit")], sends := [.ok 4] }

/-- A world in which a client has closed its connection. -/
def hangup_world : World :=
  { create := .ok 4, ctls := [.ok (), .ok (), .ok ()], lines := [], accepts := [],
    sockopts := [], recvs := [.ok []], sends := [] }

/-- A world in which `accept` fails with `EMFILE` (24) and a client sends
`hi`. -/
def accept_fails_world : World :=
  { create := .ok 4, ctls := [.ok (), .ok (), .ok ()], lines := [],
    accepts := [.fail 24], sockopts := [], recvs := [.ok (bytes_of "hi")], sends := [.ok 2] }

/-- A world in which the operator types `hello`, and `recv` and `send` on
standard input fail with `ENOTSOCK` (88). -/
def chatty_world : World :=
  { create := .ok 4, ctls := [.ok (), .ok (), .ok ()], lines := [some (bytes_of "hello\n")],
    accepts := [], sockopts := [], recvs := [.fail 88], sends := [.fail 88] }

/-- A world in which `recv` fails with `ECONNRESET` (104) and `send` fails
with `EFAULT` (14). -/
def recv_error_world : World :=
  { create := .ok 4, ctls := [.ok (), .ok (), .ok ()], lines := [], accepts := [],
    sockopts := [], recvs := [.fail 104], sends := [.fail 14] }

/-- A world in which a client sends 512 bytes at once. -/
def full_world : World :=
  { create := .ok 4, ctls := [.ok (), .ok (), .ok ()], lines := [], accepts := [],
    sockopts := [], recvs := [.ok (List.replicate 512 65)], sends := [.ok 512] }

/-- The `send` calls that `send_data` is to make for successful attempts
accepting `ks` bytes, from offset `total` with `remain` bytes left. -/
def send_calls (fd : Int) (data : List Nat) : Nat → Nat → List Nat → List Call
  | _, _, [] => []
  | total, remain, k :: ks =>
    Call.send fd total (window data total remain) remain k ::
      send_calls fd data (total + k) (remain - k) ks

/-- The successful `send` attempts `ks` each accept at least one byte and at
most what remains of `n` bytes. -/
def within : Nat → List Nat → Bool
  | _, [] => true
  | n, k :: ks => decide (1 ≤ k) && decide (k ≤ n) && within (n - k) ks

/-! ## `send_data` -/

/-- Claim C7 at the requested length 0: `send_data` makes no `send` attempt,
stores 0 in `*len` and returns -1, although no attempt returned an error;
the state (trace and scripts) is left as it was. -/
theorem send_data_zero_length_fails (sockfd : Int) (data : List Nat) (s : State) :
    send_data sockfd data 0 s = Res.val (-1, 0) s := by
  obtain ⟨⟨cr, ctls, lines, accepts, sockopts, recvs, sends⟩, e, m, ev, c, t⟩ := s
  cases sends <;> simp [send_data, send_loop]

/-- Small values pass through `int32_t` unchanged. -/
theorem to_int32_small (k : Nat) (h : k < 2147483648) : to_int32 k = k := by
  unfold to_int32; omega

/-- Small values pass through `uint32_t` unchanged. -/
theorem to_uint32_small (k : Nat) (h : k < 4294967296) : to_uint32 k = k := by
  unfold to_uint32; omega

/-- The loop of `send_data` on successful attempts that fit what remains:
it ends with everything sent, having made exactly the calls `send_calls`. -/
theorem send_loop_fits (fd : Int) (data : List Nat) (len : Nat)
    (rest : List (SysResult Nat)) (errno : Int) (hlen : len < 2147483648) :
    ∀ (ks : List Nat) (total remain : Nat) (bytes : Int) (calls : List Call),
      fits remain ks = true → total + remain = len →
      (send_loop fd data len (ks.map SysResult.ok ++ rest) total remain bytes errno
          calls).blocked = false ∧
      (send_loop fd data len (ks.map SysResult.ok ++ rest) total remain bytes errno
          calls).total = len ∧
      (send_loop fd data len (ks.map SysResult.ok ++ rest) total remain bytes errno
          calls).errno = errno ∧
      (send_loop fd data len (ks.map SysResult.ok ++ rest) total remain bytes errno
          calls).rest = rest ∧
      (send_loop fd data len (ks.map SysResult.ok ++ rest) total remain bytes errno
          calls).calls = calls ++ send_calls fd data total remain ks ∧
      ((send_loop fd data len (ks.map SysResult.ok ++ rest) total remain bytes errno
          calls).bytes = -1 → bytes = -1 ∧ ks = []) := by
  intro ks
  induction ks with
  | nil =>
    intro total remain bytes calls hfit hsum
    have hrem : remain = 0 := by simpa [fits] using hfit
    have htot : total = len := by omega
    subst hrem
    cases rest with
    | nil => simp [send_loop, send_calls, htot]
    | cons o rest => simp [send_loop, send_calls, htot]
  | cons k ks ih =>
    intro total remain bytes calls hfit hsum
    simp only [fits, Bool.and_eq_true, decide_eq_true_eq] at hfit
    obtain ⟨⟨hk1, hk2⟩, hfit⟩ := hfit
    have hlt : total < len := by omega
    have hk : to_int32 (k : Int) = k := to_int32_small k (by omega)
    have hne : ¬ ((k : Int) = -1) := by omega
    have ht : to_uint32 ((total : Int) + (k : Int)) = total + k := by
      have := to_uint32_small (total + k) (by omega)
      simpa using this
    have hr : to_uint32 ((remain : Int) - (k : Int)) = remain - k := by
      unfold to_uint32; omega
    have := ih (total + k) (remain - k) (k : Int)
      (calls ++ [Call.send fd total (window data total remain) remain k]) hfit (by omega)
    have e : (k :: ks).map SysResult.ok ++ rest
        = SysResult.ok k :: (ks.map SysResult.ok ++ rest) := rfl
    rw [e]
    simp only [send_loop, hlt, if_true, hk, hne, if_false, ht, hr, send_calls]
    obtain ⟨h1, h2, h3, h4, h5, h6⟩ := this
    refine ⟨h1, h2, h3, h4, ?_, ?_⟩
    · rw [h5]; simp
    · intro h; exact absurd (h6 h).1 hne

/-- The loop of `send_data` on successful attempts (each accepting at least
one byte and at most what remains) that leave something unsent, followed by
a failing attempt: it ends with `bytes = -1`, `errno` set, and `total` the
sum of the accepted counts. -/
theorem send_loop_error (fd : Int) (data : List Nat) (len : Nat)
    (rest : List (SysResult Nat)) (e : Int) (hlen : len < 2147483648) :
    ∀ (ks : List Nat) (total remain : Nat) (bytes errno : Int) (calls : List Call),
      within remain ks = true → ks.sum < remain → total + remain = len →
      (send_loop fd data len (ks.map SysResult.ok ++ SysResult.fail e :: rest) total remain
          bytes errno calls).blocked = false ∧
      (send_loop fd data len (ks.map SysResult.ok ++ SysResult.fail e :: rest) total remain
          bytes errno calls).total = total + ks.sum ∧
      (send_loop fd data len (ks.map SysResult.ok ++ SysResult.fail e :: rest) total remain
          bytes errno calls).errno = e ∧
      (send_loop fd data len (ks.map SysResult.ok ++ SysResult.fail e :: rest) total remain
          bytes errno calls).rest = rest ∧
      (send_loop fd data len (ks.map SysResult.ok ++ SysResult.fail e :: rest) total remain
          bytes errno calls).bytes = -1 := by
  intro ks
  induction ks with
  | nil =>
    intro total remain bytes errno calls _ hsum htot
    simp only [List.sum_nil] at hsum
    have hlt : total < len := by omega
    simp [send_loop, hlt]
  | cons k ks ih =>
    intro total remain bytes errno calls hfit hsum htot
    simp only [within, Bool.and_eq_true, decide_eq_true_eq] at hfit
    obtain ⟨⟨hk1, hk2⟩, hfit⟩ := hfit
    simp only [List.sum_cons] at hsum
    have hlt : total < len := by omega
    have hk : to_int32 (k : Int) = k := to_int32_small k (by omega)
    have hne : ¬ ((k : Int) = -1) := by omega
    have ht : to_uint32 ((total : Int) + (k : Int)) = total + k := by
      have := to_uint32_small (total + k) (by omega)
      simpa using this
    have hr : to_uint32 ((remain : Int) - (k : Int)) = remain - k := by
      unfold to_uint32; omega
    have := ih (total + k) (remain - k) (k : Int) errno
      (calls ++ [Call.send fd total (window data total remain) remain k]) hfit (by omega)
      (by omega)
    have e1 : (k :: ks).map SysResult.ok ++ SysResult.fail e :: rest
        = SysResult.ok k :: (ks.map SysResult.ok ++ SysResult.fail e :: rest) := rfl
    rw [e1]
    simp only [send_loop, hlt, if_true, hk, hne, if_false, ht, hr, List.sum_cons]
    obtain ⟨h1, h2, h3, h4, h5⟩ := this
    exact ⟨h1, by rw [h2]; omega, h3, h4, h5⟩

/-- For a requested length `n ≥ 1`, `send_data` on attempts that all succeed
and fit `n` returns 0 and stores `n` in `*len`. -/
theorem send_data_all_sent (fd : Int) (data : List Nat) (n : Nat) (s : State)
    (ks : List Nat) (rest : List (SysResult Nat))
    (hn : 1 ≤ n) (hlen : n < 2147483648)
    (hsend : s.world.sends = ks.map SysResult.ok ++ rest) (hfit : fits n ks = true) :
    ∃ s1, send_data fd data n s = Res.val (0, n) s1 ∧
      s1.trace = s.trace ++ send_calls fd data 0 n ks ∧ s1.world.sends = rest := by
  obtain ⟨h1, h2, h3, h4, h5, h6⟩ :=
    send_loop_fits fd data n rest s.errno hlen ks 0 n (-1) [] hfit (by omega)
  have hks : ks ≠ [] := by
    intro h
    rw [h] at hfit
    simp only [fits, beq_iff_eq] at hfit
    omega
  have hb : ¬ ((send_loop fd data n (ks.map SysResult.ok ++ rest) 0 n (-1) s.errno
      []).bytes = -1) := fun h => hks (h6 h).2
  have key : send_data fd data n s = Res.val (0, n)
      { s with world := { s.world with sends := rest }, errno := s.errno,
               trace := s.trace ++ send_calls fd data 0 n ks } := by
    simp [send_data, hsend, h1, hb, h2, h3, h4, h5]
  exact ⟨_, key, rfl, rfl⟩

/-- For a requested length `n ≥ 1`, `send_data` on attempts of which one
fails, after successful ones that left something unsent, returns -1 and
stores the sum of the accepted counts in `*len`. -/
theorem send_data_error (fd : Int) (data : List Nat) (n : Nat) (s : State)
    (ks : List Nat) (e : Int) (rest : List (SysResult Nat))
    (hlen : n < 2147483648)
    (hsend : s.world.sends = ks.map SysResult.ok ++ SysResult.fail e :: rest)
    (hfit : within n ks = true) (hsum : ks.sum < n) :
    ∃ s1, send_data fd data n s = Res.val (-1, ks.sum) s1 ∧ s1.errno = e ∧
      s1.world.sends = rest := by
  obtain ⟨h1, h2, h3, h4, h5⟩ :=
    send_loop_error fd data n rest e hlen ks 0 n (-1) s.errno [] hfit hsum (by omega)
  have key : send_data fd data n s = Res.val (-1, ks.sum)
      { s with world := { s.world with sends := rest }, errno := e,
               trace := s.trace ++ (send_loop fd data n
                 (ks.map SysResult.ok ++ SysResult.fail e :: rest) 0 n (-1) s.errno
                 []).calls } := by
    simp [send_data, hsend, h1, h2, h3, h4, h5]
  exact ⟨_, key, rfl, rfl⟩

/-- A store at index `n` leaves the first `n` entries as they are. -/
theorem take_set_same (a : Nat) : ∀ (l : List Nat) (n : Nat), (l.set n a).take n = l.take n
  | [], n => by simp
  | _ :: _, 0 => by simp
  | x :: l, n + 1 => by simp [take_set_same a l n]

/-- After `recv_data` has stored the bytes `B` and the terminating zero, the
first `B.length` bytes of the buffer are `B`. -/
theorem window_after_recv (msg B : List Nat) (h : B.length ≤ msg.length) :
    window (store_at (store_front msg B) (B.length : Int) 0) 0 B.length = B := by
  have h0 : (0 : Int) ≤ (B.length : Int) := Int.ofNat_nonneg _
  simp only [window, store_at, store_front, h0, if_true, Int.toNat_ofNat, List.drop_zero,
    take_set_same, List.take_take, Nat.min_eq_left h]
  exact List.take_left B _

/-- The bytes delivered by the calls `send_calls` are the bytes of the
range they start with. -/
theorem echoed_send_calls (fd : Int) (data : List Nat) :
    ∀ (ks : List Nat) (total remain : Nat), fits remain ks = true →
      echoed fd (send_calls fd data total remain ks) = window data total remain := by
  intro ks
  induction ks with
  | nil =>
    intro total remain hfit
    have hrem : remain = 0 := by simpa [fits] using hfit
    simp [send_calls, echoed, window, hrem]
  | cons k ks ih =>
    intro total remain hfit
    simp only [fits, Bool.and_eq_true, decide_eq_true_eq] at hfit
    obtain ⟨⟨_, hk2⟩, hfit⟩ := hfit
    have h0 : (0 : Int) ≤ (k : Int) := Int.ofNat_nonneg _
    simp only [send_calls, echoed, h0, and_self, if_true, Int.toNat_ofNat, ih _ _ hfit, window,
      List.take_take, Nat.min_eq_left hk2]
    have e : remain = k + (remain - k) := by omega
    conv_rhs => rw [e, List.take_add, List.drop_drop]

/-- Every call of `send_calls` is a `send` to the given descriptor. -/
theorem send_calls_to (fd : Int) (data : List Nat) :
    ∀ (ks : List Nat) (total remain : Nat),
      ∀ c ∈ send_calls fd data total remain ks, Call.is_send_to fd c = true := by
  intro ks
  induction ks with
  | nil => intro total remain c hc; simp [send_calls] at hc
  | cons k ks ih =>
    intro total remain c hc
    simp only [send_calls, List.mem_cons] at hc
    rcases hc with rfl | hc
    · simp [Call.is_send_to]
    · exact ih _ _ c hc

/-- There is one call of `send_calls` for each attempt. -/
theorem send_calls_length (fd : Int) (data : List Nat) :
    ∀ (ks : List Nat) (total remain : Nat),
      (send_calls fd data total remain ks).length = ks.length := by
  intro ks
  induction ks with
  | nil => intro total remain; simp [send_calls]
  | cons k ks ih => intro total remain; simp [send_calls, ih]

/-- Claim C1: a client-ready event on which the single `recv` obtains the
bytes `B`, `1 ≤ length B ≤ 512`, and every `send` attempt succeeds
(accepting between one byte and what remains) is handled with one `recv`
and one `send` call per attempt, every `send` going to the descriptor of
the event; the bytes these calls deliver, concatenated, are exactly `B`,
and handling ends without leaving the loop.  (For `length B = 512` the
terminating zero of `recv_data` is stored behind the buffer; the model
leaves the buffer itself untouched by that store.) -/
theorem echo_exact (listener epfd : Int) (ev : epoll_event) (s : State)
    (B : List Nat) (ks : List Nat) (recvs : List (SysResult (List Nat)))
    (sends : List (SysResult Nat))
    (hready : readable ev = true) (hstdin : ev.fd ≠ STDIN_FILENO)
    (hlistener : ev.fd ≠ listener) (hmsg : s.msg.length = MSG_LENGTH)
    (hB1 : 1 ≤ B.length) (hB2 : B.length ≤ 512)
    (hrecv : s.world.recvs = SysResult.ok B :: recvs)
    (hsend : s.world.sends = ks.map SysResult.ok ++ sends)
    (hfit : fits B.length ks = true) :
    ∃ (s1 : State) (calls : List Call),
      handle_event listener epfd ev s = Res.val () s1 ∧
      s1.trace = s.trace ++
        [Call.recv ev.fd 512 B.length, Call.store B.length 512] ++ calls ∧
      calls.length = ks.length ∧
      (∀ c ∈ calls, Call.is_send_to ev.fd c = true) ∧
      echoed ev.fd calls = B ∧
      (echoed ev.fd calls).length = B.length ∧
      s1.world.sends = sends := by
  have hloop := send_loop_fits ev.fd
    (store_at (store_front s.msg B) (B.length : Int) 0) B.length sends s.errno (by omega)
    ks 0 B.length (-1) [] hfit (by omega)
  obtain ⟨h1, h2, h3, h4, h5, h6⟩ := hloop
  have hks : ks ≠ [] := by
    intro h
    rw [h] at hfit
    simp only [fits, beq_iff_eq] at hfit
    omega
  have hbytes : to_int32 (B.length : Int) = B.length := to_int32_small _ (by omega)
  have hu : to_uint32 (B.length : Int) = B.length := to_uint32_small _ (by omega)
  have htake : List.take 512 B = B := List.take_of_length_le hB2
  have hne0 : ¬ ((B.length : Int) = 0) := by omega
  have hb : ¬ ((send_loop ev.fd (store_at (store_front s.msg B) (B.length : Int) 0) B.length
      (ks.map SysResult.ok ++ sends) 0 B.length (-1) s.errno []).bytes = -1) :=
    fun h => hks (h6 h).2
  have key : handle_event listener epfd ev s = Res.val ()
      { world := { s.world with recvs := recvs, sends := sends },
        errno := s.errno,
        msg := store_at (store_front s.msg B) (B.length : Int) 0,
        events := s.events, cnt := s.cnt,
        trace := s.trace ++ [Call.recv ev.fd 512 B.length, Call.store B.length 512] ++
          send_calls ev.fd (store_at (store_front s.msg B) (B.length : Int) 0) 0 B.length ks } := by
    simp only [handle_event, hready, if_true, stdin_command, hstdin, if_false, client_query,
      hlistener, recv_data, MSG_LENGTH, hrecv]
    simp [htake, hbytes, hne0, hu, send_data, State.log, hsend, h1, hb, h2, h3, h4, h5, hmsg,
      MSG_LENGTH]
  have hwin := window_after_recv s.msg B (by rw [hmsg]; exact hB2)
  have hecho := echoed_send_calls ev.fd
    (store_at (store_front s.msg B) (B.length : Int) 0) ks 0 B.length hfit
  rw [hwin] at hecho
  exact ⟨_, _, key, rfl, send_calls_length _ _ _ _ _, send_calls_to _ _ _ _ _, hecho,
    by rw [hecho], rfl⟩

/-- Witness of claim C1: the message `hello`, sent back in two pieces. -/
theorem echo_exact_witness :
    ∃ (s1 : State) (calls : List Call),
      handle_event 3 4 ⟨EPOLLIN, 5⟩ (initial hello_world) = Res.val () s1 ∧
      s1.trace = (initial hello_world).trace ++
        [Call.recv 5 512 (bytes_of "hello").length,
          Call.store (bytes_of "hello").length 512] ++ calls ∧
      calls.length = [2, 3].length ∧
      (∀ c ∈ calls, Call.is_send_to 5 c = true) ∧
      echoed 5 calls = bytes_of "hello" ∧
      (echoed 5 calls).length = (bytes_of "hello").length ∧
      s1.world.sends = [] :=
  echo_exact 3 4 ⟨EPOLLIN, 5⟩ (initial hello_world) (bytes_of "hello") [2, 3] [] []
    (by decide) (by decide) (by decide) (List.length_replicate _ _)
    (by decide) (by decide) rfl rfl (by decide)

/-! ## The control channel -/

/-- The comparison `strncmp(s, cmd_quit, 4)` yields 0 exactly when `s`
begins with the four bytes of `cmd_quit`. -/
theorem strncmp_quit (s : List Nat) :
    strncmp s cmd_quit 4 = 0 ↔ s.take 4 = cmd_quit := by
  rcases s with _ | ⟨a, _ | ⟨b, _ | ⟨c, _ | ⟨d, r⟩⟩⟩⟩ <;>
    simp [strncmp, cmd_quit] <;> omega

/-- The command has four characters. -/
theorem strlen_cmd_quit : strlen cmd_quit = 4 := by decide

/-- After `fgets` has stored a line in `msg`, the buffer begins with the
command exactly when the line does. -/
theorem fgets_begins (msg line : List Nat) (hmsg : msg.length = MSG_LENGTH) :
    (store_front msg (line.take (MSG_LENGTH - 1) ++ [0])).take 4 = cmd_quit ↔
      line.take 4 = cmd_quit := by
  have h4 : min 4 msg.length = 4 := by rw [hmsg]; decide
  unfold store_front
  rw [List.take_take, h4]
  rcases line with _ | ⟨a, _ | ⟨b, _ | ⟨c, _ | ⟨d, r⟩⟩⟩⟩ <;> simp [cmd_quit, MSG_LENGTH]

/-- The loop over a batch, split at a position. -/
theorem for_events_append (listener epfd : Int) (post : List epoll_event) :
    ∀ (pre : List epoll_event) (s0 s : State),
      for_events listener epfd pre s0 = Res.val () s →
      for_events listener epfd (pre ++ post) s0 = for_events listener epfd post s := by
  intro pre
  induction pre with
  | nil =>
    intro s0 s h
    simp only [for_events, Res.val.injEq, true_and] at h
    simp [h]
  | cons ev pre ih =>
    intro s0 s h
    simp only [for_events, List.cons_append] at h ⊢
    cases hh : handle_event listener epfd ev s0 with
    | halt o s1 => simp [hh] at h
    | val a s1 =>
      simp only [hh] at h ⊢
      exact ih s1 s h

/-- The function `recv_data` never makes `main_loop` return. -/
theorem recv_data_no_return (fd : Int) (buf : List Nat) (length : Int) (s s1 : State)
    (c : Int) : recv_data fd buf length s ≠ Res.halt (Outcome.returned c) s1 := by
  unfold recv_data
  split
  · simp
  · split
    · simp
    · split <;> simp

/-- The function `remove_client` never makes `main_loop` return. -/
theorem remove_client_no_return (epfd fd : Int) (s s1 : State) (c : Int) :
    remove_client epfd fd s ≠ Res.halt (Outcome.returned c) s1 := by
  unfold remove_client
  split
  · simp
  · split
    · simp
    · split
      · simp
      · split <;> simp

/-- The function `send_data` never makes `main_loop` return. -/
theorem send_data_no_return (fd : Int) (data : List Nat) (len : Nat) (s s1 : State)
    (c : Int) : send_data fd data len s ≠ Res.halt (Outcome.returned c) s1 := by
  unfold send_data
  simp only
  split <;> simp

/-- The receive-and-echo branch never makes `main_loop` return. -/
theorem client_query_no_return (listener epfd : Int) (ev : epoll_event) (s s1 : State)
    (c : Int) (h : ev.fd ≠ listener) :
    client_query listener epfd ev s ≠ Res.halt (Outcome.returned c) s1 := by
  unfold client_query
  simp only [h, if_false]
  cases hr : recv_data ev.fd s.msg MSG_LENGTH s with
  | halt o s2 =>
    intro hh
    simp only [Res.halt.injEq] at hh
    exact recv_data_no_return ev.fd s.msg MSG_LENGTH s s1 c (by rw [hr, hh.1, hh.2])
  | val a s2 =>
    obtain ⟨bytes, msg1⟩ := a
    simp only
    split
    · cases hrem : remove_client epfd ev.fd { s2 with msg := msg1 } with
      | halt o s3 =>
        intro hh
        simp only [Res.halt.injEq] at hh
        exact remove_client_no_return epfd ev.fd _ s1 c (by rw [hrem, hh.1, hh.2])
      | val a s3 => simp
    · cases hsd : send_data ev.fd msg1 (to_uint32 bytes) { s2 with msg := msg1 } with
      | halt o s3 =>
        intro hh
        simp only [Res.halt.injEq] at hh
        exact send_data_no_return ev.fd _ _ _ s1 c (by rw [hsd, hh.1, hh.2])
      | val a s3 => simp

/-- When `fgets` has read a line: at a ready control-channel event at any
position of a batch (the events before it handled without leaving the
loop), `main_loop` returns `EXIT_SUCCESS` exactly when the line read begins
with the four bytes `quit`.  When it does, the loop over the batch ends
there with `EXIT_SUCCESS`, the only call made for this and the later events
being the `fgets`; when it does not, handling the event does not make
`main_loop` return. -/
theorem quit_stops_loop (listener epfd : Int) (pre post : List epoll_event)
    (ev : epoll_event) (s0 s : State) (line : List Nat) (lines : List (Option (List Nat)))
    (hl : 0 < listener) (hready : readable ev = true) (hfd : ev.fd = STDIN_FILENO)
    (hpre : for_events listener epfd pre s0 = Res.val () s)
    (hmsg : s.msg.length = MSG_LENGTH)
    (hline : s.world.lines = some line :: lines) :
    ((∃ s1, handle_event listener epfd ev s = Res.halt (Outcome.returned EXIT_SUCCESS) s1)
        ↔ line.take 4 = cmd_quit) ∧
    (line.take 4 = cmd_quit →
      ∃ s1, for_events listener epfd (pre ++ ev :: post) s0
          = Res.halt (Outcome.returned EXIT_SUCCESS) s1 ∧
        s1.trace = s.trace ++ [Call.fgets MSG_LENGTH]) ∧
    (line.take 4 ≠ cmd_quit →
      ∀ c s1, handle_event listener epfd ev s ≠ Res.halt (Outcome.returned c) s1) := by
  have hne : ev.fd ≠ listener := by rw [hfd]; unfold STDIN_FILENO; omega
  have hcmp : strncmp (store_front s.msg (line.take (MSG_LENGTH - 1) ++ [0])) cmd_quit
      (strlen cmd_quit) = 0 ↔ line.take 4 = cmd_quit := by
    rw [strlen_cmd_quit, strncmp_quit, fgets_begins _ _ hmsg]
  have hyes : line.take 4 = cmd_quit →
      handle_event listener epfd ev s = Res.halt (Outcome.returned EXIT_SUCCESS)
        ({ s with world := { s.world with lines := lines },
                  msg := store_front s.msg (line.take (MSG_LENGTH - 1) ++ [0]) }.log
          (Call.fgets MSG_LENGTH)) := by
    intro hq
    simp only [handle_event, hready, if_true, stdin_command, hfd, hline, State.log,
      hcmp.mpr hq]
  have hno : line.take 4 ≠ cmd_quit →
      ∀ c s1, handle_event listener epfd ev s ≠ Res.halt (Outcome.returned c) s1 := by
    intro hq c s1
    have hq1 : ¬ (strncmp (store_front s.msg (line.take (MSG_LENGTH - 1) ++ [0])) cmd_quit
      (strlen cmd_quit) = 0) := fun h => hq (hcmp.mp h)
    simp only [handle_event, hready, if_true, stdin_command, hfd, hline, State.log, hq1,
      if_false]
    exact client_query_no_return listener epfd ev _ s1 c hne
  refine ⟨⟨?_, ?_⟩, ?_, hno⟩
  · rintro ⟨s1, h1⟩
    by_contra hq
    exact hno hq _ _ h1
  · intro hq
    exact ⟨_, hyes hq⟩
  · intro hq
    obtain ⟨s1, h1, h2⟩ : ∃ s1, handle_event listener epfd ev s
        = Res.halt (Outcome.returned EXIT_SUCCESS) s1 ∧
        s1.trace = s.trace ++ [Call.fgets MSG_LENGTH] := ⟨_, hyes hq, rfl⟩
    refine ⟨s1, ?_, h2⟩
    rw [for_events_append listener epfd (ev :: post) pre s0 s hpre]
    simp only [for_events, h1]

/-- An instance of the previous theorem: the line `quit` followed by a
newline, typed while a client is ready in the same batch. -/
theorem quit_stops_loop_witness :
    ((∃ s1, handle_event 3 4 ⟨EPOLLIN, STDIN_FILENO⟩ (initial (typed_world "quit\n"))
        = Res.halt (Outcome.returned EXIT_SUCCESS) s1)
        ↔ (bytes_of "quit\n").take 4 = cmd_quit) ∧
    ((bytes_of "quit\n").take 4 = cmd_quit →
      ∃ s1, for_events 3 4 ([] ++ ⟨EPOLLIN, STDIN_FILENO⟩ :: [⟨EPOLLIN, 5⟩])
          (initial (typed_world "quit\n"))
          = Res.halt (Outcome.returned EXIT_SUCCESS) s1 ∧
        s1.trace = (initial (typed_world "quit\n")).trace ++ [Call.fgets MSG_LENGTH]) ∧
    ((bytes_of "quit\n").take 4 ≠ cmd_quit →
      ∀ c s1, handle_event 3 4 ⟨EPOLLIN, STDIN_FILENO⟩ (initial (typed_world "quit\n"))
        ≠ Res.halt (Outcome.returned c) s1) :=
  quit_stops_loop 3 4 [] [⟨EPOLLIN, 5⟩] ⟨EPOLLIN, STDIN_FILENO⟩
    (initial (typed_world "quit\n")) (initial (typed_world "quit\n"))
    (bytes_of "quit\n") [] (by decide) (by decide) rfl rfl (List.length_replicate _ _) rfl

/-- Four lines an operator may type: `quit` and `quitx` begin with the
command, `QUIT` and `qui` do not. -/
theorem quit_examples :
    (bytes_of "quit\n").take 4 = cmd_quit ∧ (bytes_of "quitx\n").take 4 = cmd_quit ∧
    (bytes_of "QUIT\n").take 4 ≠ cmd_quit ∧ (bytes_of "qui\n").take 4 ≠ cmd_quit := by
  decide

/-! ## Peer hang-up -/

/-- Claim C8: a client-ready event on which `recv` obtains zero bytes is
handled with exactly one `EPOLL_CTL_DEL`, on the descriptor of the event,
and no `send`; handling does not leave the loop, which goes on with the
next event of the batch. -/
theorem hangup_unwatches (listener epfd : Int) (ev : epoll_event)
    (post : List epoll_event) (s : State) (recvs : List (SysResult (List Nat)))
    (r : SysResult Unit) (ctls : List (SysResult Unit))
    (hready : readable ev = true) (hfd : 0 < ev.fd) (hlistener : ev.fd ≠ listener)
    (hepfd : 0 < epfd)
    (hrecv : s.world.recvs = SysResult.ok [] :: recvs)
    (hctl : s.world.ctls = r :: ctls) :
    ∃ (s1 : State) (ret : Int),
      handle_event listener epfd ev s = Res.val () s1 ∧
      s1.trace = s.trace ++
        [Call.recv ev.fd 512 0, Call.store 0 s.msg.length,
          Call.epoll_ctl_del epfd ev.fd ret] ∧
      s1.world.sends = s.world.sends ∧
      for_events listener epfd (ev :: post) s = for_events listener epfd post s1 := by
  have hstdin : ev.fd ≠ STDIN_FILENO := by unfold STDIN_FILENO; omega
  have h0 : to_int32 0 = 0 := by decide
  cases r with
  | ok u =>
    have key : handle_event listener epfd ev s = Res.val ()
        { world := { s.world with recvs := recvs, ctls := ctls },
          errno := s.errno, msg := store_at (store_front s.msg []) 0 0,
          events := s.events, cnt := s.cnt,
          trace := s.trace ++ [Call.recv ev.fd 512 0, Call.store 0 s.msg.length,
            Call.epoll_ctl_del epfd ev.fd 0] } := by
      simp [handle_event, hready, stdin_command, hstdin, client_query, hlistener, recv_data,
        MSG_LENGTH, hrecv, h0, remove_client, hepfd, hfd, hctl, State.log]
    exact ⟨_, 0, key, rfl, rfl, by simp only [for_events, key]⟩
  | fail e =>
    have key : handle_event listener epfd ev s = Res.val ()
        { world := { s.world with recvs := recvs, ctls := ctls },
          errno := e, msg := store_at (store_front s.msg []) 0 0,
          events := s.events, cnt := s.cnt,
          trace := s.trace ++ [Call.recv ev.fd 512 0, Call.store 0 s.msg.length,
            Call.epoll_ctl_del epfd ev.fd (-1)] } := by
      simp [handle_event, hready, stdin_command, hstdin, client_query, hlistener, recv_data,
        MSG_LENGTH, hrecv, h0, remove_client, hepfd, hfd, hctl, State.log]
    exact ⟨_, -1, key, rfl, rfl, by simp only [for_events, key]⟩

/-- Witness of claim C8: descriptor 5 hangs up, descriptor 6 is next in the
batch. -/
theorem hangup_unwatches_witness :
    ∃ (s1 : State) (ret : Int),
      handle_event 3 4 ⟨EPOLLIN, 5⟩ (initial hangup_world) = Res.val () s1 ∧
      s1.trace = (initial hangup_world).trace ++
        [Call.recv 5 512 0, Call.store 0 (initial hangup_world).msg.length,
          Call.epoll_ctl_del 4 5 ret] ∧
      s1.world.sends = (initial hangup_world).world.sends ∧
      for_events 3 4 (⟨EPOLLIN, 5⟩ :: [⟨EPOLLIN, 6⟩]) (initial hangup_world)
        = for_events 3 4 [⟨EPOLLIN, 6⟩] s1 :=
  hangup_unwatches 3 4 ⟨EPOLLIN, 5⟩ [⟨EPOLLIN, 6⟩] (initial hangup_world) []
    (SysResult.ok ()) [SysResult.ok (), SysResult.ok ()]
    (by decide) (by decide) (by decide) (by decide) rfl rfl

/-! ## Accept failure -/

/-- A successful wait leaves the batch in the first entries of the event
array, its length in the counter, and `errno` as it was. -/
theorem epoll_wait_ok (epfd : Int) (batch : List epoll_event) (s : State)
    (hev : s.events.length = MAX_CLIENTS) (hb : batch.length ≤ MAX_CLIENTS) :
    (epoll_wait epfd (SysResult.ok batch) s).events.take
        (epoll_wait epfd (SysResult.ok batch) s).cnt.toNat = batch ∧
    (epoll_wait epfd (SysResult.ok batch) s).errno = s.errno ∧
    (epoll_wait epfd (SysResult.ok batch) s).cnt = batch.length := by
  have ht : batch.take MAX_CLIENTS = batch := List.take_of_length_le hb
  simp only [epoll_wait, State.log, ht, Int.toNat_ofNat, store_front, List.take_take, hev,
    Nat.min_eq_left hb, and_self, and_true]
  exact List.take_left batch _

/-- One round of the loop `while (true)` after a successful wait, with no
stale interruption in `errno`: the batch is dispatched, and the loop waits
again unless the run ended inside the batch. -/
theorem while_loop_dispatch (listener epfd : Int) (batch : List epoll_event)
    (waits : List (SysResult (List epoll_event))) (s : State)
    (herr : s.errno ≠ EINTR) (hev : s.events.length = MAX_CLIENTS)
    (hb : batch.length ≤ MAX_CLIENTS) :
    while_loop listener epfd (SysResult.ok batch :: waits) s =
      match for_events listener epfd batch (epoll_wait epfd (SysResult.ok batch) s) with
      | Res.halt o s2 => (o, s2)
      | Res.val _ s2 => while_loop listener epfd waits s2 := by
  obtain ⟨h1, h2, h3⟩ := epoll_wait_ok epfd batch s hev hb
  have hc : ¬ ((batch.length : Int) = -1) := by omega
  rw [while_loop]
  simp only [h2, herr, if_false, h3, hc]
  rw [h3] at h1
  rw [h1]

/-- Claim C4 as the code has it: a listener-ready event on which `accept`
fails makes `main_loop` return `EXIT_FAILURE` at that event.  The only call
made for the event is the `accept`: no descriptor is watched or unwatched,
the later events of the batch are not handled and `epoll_wait` is not
called again. -/
theorem accept_failure_returns (listener epfd : Int) (pre post : List epoll_event)
    (ev : epoll_event) (waits : List (SysResult (List epoll_event))) (sw s : State)
    (e : Int) (accepts : List (SysResult Int))
    (hl : 0 < listener) (hready : readable ev = true) (hfd : ev.fd = listener)
    (herr : sw.errno ≠ EINTR) (hev : sw.events.length = MAX_CLIENTS)
    (hb : (pre ++ ev :: post).length ≤ MAX_CLIENTS)
    (hpre : for_events listener epfd pre
      (epoll_wait epfd (SysResult.ok (pre ++ ev :: post)) sw) = Res.val () s)
    (hacc : s.world.accepts = SysResult.fail e :: accepts) :
    ∃ s1, while_loop listener epfd (SysResult.ok (pre ++ ev :: post) :: waits) sw
        = (Outcome.returned EXIT_FAILURE, s1) ∧
      s1.trace = s.trace ++ [Call.accept listener (-1)] ∧
      s1.world.ctls = s.world.ctls := by
  have hstdin : ev.fd ≠ STDIN_FILENO := by rw [hfd]; unfold STDIN_FILENO; omega
  have key : handle_event listener epfd ev s = Res.halt (Outcome.returned EXIT_FAILURE)
      { world := { s.world with accepts := accepts }, errno := e, msg := s.msg,
        events := s.events, cnt := s.cnt,
        trace := s.trace ++ [Call.accept listener (-1)] } := by
    have hls : ¬ (listener = STDIN_FILENO) := by rw [← hfd]; exact hstdin
    simp [handle_event, hready, stdin_command, hls, client_query, hfd, accept_client, hl,
      hacc, State.log]
  obtain ⟨s1, h1, h2, h3⟩ : ∃ s1, handle_event listener epfd ev s
      = Res.halt (Outcome.returned EXIT_FAILURE) s1 ∧
      s1.trace = s.trace ++ [Call.accept listener (-1)] ∧
      s1.world.ctls = s.world.ctls := ⟨_, key, rfl, rfl⟩
  refine ⟨s1, ?_, h2, h3⟩
  rw [while_loop_dispatch listener epfd _ waits sw herr hev hb,
    for_events_append listener epfd (ev :: post) pre _ s hpre]
  simp only [for_events, h1]

/-- Witness of claim C4 as the code has it: the listener (descriptor 3) and a
client are ready in one batch, `accept` fails, another batch would follow. -/
theorem accept_failure_returns_witness :
    ∃ s1, while_loop 3 4
        (SysResult.ok ([] ++ ⟨EPOLLIN, 3⟩ :: [⟨EPOLLIN, 5⟩]) :: [SysResult.ok [⟨EPOLLIN, 5⟩]])
        (initial accept_fails_world)
        = (Outcome.returned EXIT_FAILURE, s1) ∧
      s1.trace = (epoll_wait 4 (SysResult.ok ([] ++ ⟨EPOLLIN, 3⟩ :: [⟨EPOLLIN, 5⟩]))
          (initial accept_fails_world)).trace ++ [Call.accept 3 (-1)] ∧
      s1.world.ctls = (epoll_wait 4 (SysResult.ok ([] ++ ⟨EPOLLIN, 3⟩ :: [⟨EPOLLIN, 5⟩]))
          (initial accept_fails_world)).world.ctls :=
  accept_failure_returns 3 4 [] [⟨EPOLLIN, 5⟩] ⟨EPOLLIN, 3⟩ [SysResult.ok [⟨EPOLLIN, 5⟩]]
    (initial accept_fails_world)
    (epoll_wait 4 (SysResult.ok ([] ++ ⟨EPOLLIN, 3⟩ :: [⟨EPOLLIN, 5⟩]))
      (initial accept_fails_world))
    24 [] (by decide) (by decide) rfl (by decide) (List.length_replicate _ _) (by decide)
    (by rfl) rfl

set_option maxRecDepth 100000 in
/-- Claim C4 fails on the code: with the listener (descriptor 3) and a
client (descriptor 5) ready in one batch and `accept` failing, `main_loop`
returns `EXIT_FAILURE`; the client of the batch is not received from and the
second wait of the script is not made. -/
theorem accept_failure_is_fatal :
    (main_loop 3 [SysResult.ok [⟨EPOLLIN, 3⟩, ⟨EPOLLIN, 5⟩], SysResult.ok [⟨EPOLLIN, 5⟩]]
        (initial accept_fails_world)).1 = Outcome.returned EXIT_FAILURE ∧
    (main_loop 3 [SysResult.ok [⟨EPOLLIN, 3⟩, ⟨EPOLLIN, 5⟩], SysResult.ok [⟨EPOLLIN, 5⟩]]
        (initial accept_fails_world)).2.trace =
      [Call.epoll_create1, Call.epoll_ctl_add 4 0 0, Call.epoll_ctl_add 4 3 0,
        Call.epoll_wait 4 32 2, Call.accept 3 (-1)] := by
  decide

/-! ## Defects -/

set_option maxRecDepth 100000 in
/-- Claim C2 fails on the code: the result of `fgets` is not checked.  In one
batch client 5 sends the four bytes `quit`, which `recv_data` stores in
`msg` and `send_data` echoes; then standard input is ready at end of file,
`fgets` reads no line and leaves `msg` as it is, the comparison with
`cmd_quit` succeeds on the client's bytes, and `main_loop` returns
`EXIT_SUCCESS` although no line was read from the control channel. -/
theorem eof_quits_on_stale_msg :
    stale_quit_world.lines = [none] ∧
    (main_loop 3 [SysResult.ok [⟨EPOLLIN, 5⟩, ⟨EPOLLIN, STDIN_FILENO⟩]]
        (initial stale_quit_world)).1 = Outcome.returned EXIT_SUCCESS ∧
    (main_loop 3 [SysResult.ok [⟨EPOLLIN, 5⟩, ⟨EPOLLIN, STDIN_FILENO⟩]]
        (initial stale_quit_world)).2.trace =
      [Call.epoll_create1, Call.epoll_ctl_add 4 0 0, Call.epoll_ctl_add 4 3 0,
        Call.epoll_wait 4 32 2, Call.recv 5 512 4, Call.store 4 512,
        Call.send 5 0 (bytes_of "quit") 4 4, Call.fgets 512] := by
  decide

set_option maxRecDepth 100000 in
/-- Claim C3 fails on the code: the operator types `hello`; the event falls
through to the client branch, which calls `recv` on standard input, stores
a zero byte at index -1 of `msg`, and calls `send` on standard input with
the length 4294967295. -/
theorem control_input_falls_through :
    (handle_event 3 4 ⟨EPOLLIN, STDIN_FILENO⟩ (initial chatty_world)).state.trace =
      [Call.fgets 512, Call.recv 0 512 (-1), Call.store (-1) 512,
        Call.send 0 0 (bytes_of "hello\n" ++ List.replicate 506 0) 4294967295 (-1)] := by
  decide

set_option maxRecDepth 100000 in
/-- Claim C5 fails on the code: after a `recv` error on descriptor 5 the
event is not skipped; `send_data` is entered with the length -1 read as
`uint32_t`, and `send` is called on the descriptor with the length
4294967295. -/
theorem recv_error_still_sends :
    (handle_event 3 4 ⟨EPOLLIN, 5⟩ (initial recv_error_world)).state.trace =
      [Call.recv 5 512 (-1), Call.store (-1) 512,
        Call.send 5 0 (List.replicate 512 0) 4294967295 (-1)] ∧
    to_uint32 (-1) = 4294967295 := by
  decide

set_option maxRecDepth 100000 in
/-- Claim C6 fails on the code: the first wait is interrupted (`EINTR`), the
second succeeds with descriptor 5 ready.  Since `errno` still holds `EINTR`,
the batch is skipped: no `recv` is made and the loop waits again.  Without
the interruption the same batch is dispatched (one `recv`, two `send`). -/
theorem stale_eintr_skips_batch :
    (main_loop 3 [SysResult.fail EINTR, SysResult.ok [⟨EPOLLIN, 5⟩]]
        (initial hello_world)).1 = Outcome.blocked ∧
    (main_loop 3 [SysResult.fail EINTR, SysResult.ok [⟨EPOLLIN, 5⟩]]
        (initial hello_world)).2.trace =
      [Call.epoll_create1, Call.epoll_ctl_add 4 0 0, Call.epoll_ctl_add 4 3 0,
        Call.epoll_wait 4 32 (-1), Call.epoll_wait 4 32 1] ∧
    (main_loop 3 [SysResult.ok [⟨EPOLLIN, 5⟩]] (initial hello_world)).2.trace =
      [Call.epoll_create1, Call.epoll_ctl_add 4 0 0, Call.epoll_ctl_add 4 3 0,
        Call.epoll_wait 4 32 1, Call.recv 5 512 5, Call.store 5 512,
        Call.send 5 0 (bytes_of "hello") 5 2, Call.send 5 2 (bytes_of "llo") 3 3] := by
  decide

/-- The descriptors `clean` closes: the first entry of the array, once per
counted entry. -/
theorem clean_closes (q : List epoll_event) (cnt : Nat) :
    closed (clean (some q) cnt) = List.replicate cnt (q.headD ⟨0, 0⟩).fd := by
  have hr : ∀ (n : Nat) (fd : Int),
      closed (List.replicate n (Call.close fd)) = List.replicate n fd := by
    intro n fd
    induction n with
    | zero => simp [closed]
    | succ n ih => simp [List.replicate_succ, closed, ih]
  have hc : ∀ (l1 l2 : List Call), closed (l1 ++ l2) = closed l1 ++ closed l2 := by
    intro l1 l2
    induction l1 with
    | nil => rfl
    | cons c l1 ih => cases c <;> simp [closed, ih]
  unfold clean
  rw [hc]
  by_cases h : (cnt : Int) > 0
  · simp [h, hr, closed]
  · have : cnt = 0 := by omega
    simp [this, closed]

set_option maxRecDepth 100000 in
/-- Claim C9 fails on the code: for an array holding the descriptors 5 and 6
and the count 2, `clean` closes descriptor 5 twice and descriptor 6 not at
all.  So it is at the end of `main`: after a batch in which client 5 is
echoed to and the operator quits, the array holds the descriptors 5 and 0,
and `clean` closes 5 twice. -/
theorem clean_closes_first_entry_only :
    closed (clean (some [⟨EPOLLIN, 5⟩, ⟨EPOLLIN, 6⟩]) 2) = [5, 5] ∧
    (main_tail 3 [SysResult.ok [⟨EPOLLIN, 5⟩, ⟨EPOLLIN, STDIN_FILENO⟩]]
        (initial (typed_world "quit\n"))).1 = Outcome.returned EXIT_SUCCESS ∧
    closed (main_tail 3 [SysResult.ok [⟨EPOLLIN, 5⟩, ⟨EPOLLIN, STDIN_FILENO⟩]]
        (initial (typed_world "quit\n"))).2 = [5, 5] := by
  decide

set_option maxRecDepth 100000 in
/-- Claim C10 fails on the code: with a buffer of 512 bytes and `length`
512, a `recv` that fills the buffer makes `recv_data` store the terminating
zero at index 512, and a failing `recv` makes it store at index -1; both
stores lie outside the buffer. -/
theorem terminator_out_of_bounds :
    stray_stores (recv_data 5 (List.replicate 512 0) 512 (initial full_world)).state.trace
      = [512] ∧
    stray_stores
      (recv_data 5 (List.replicate 512 0) 512 (initial recv_error_world)).state.trace
      = [-1] ∧
    stray_stores (recv_data 5 (List.replicate 512 0) 512 (initial hello_world)).state.trace
      = [] := by
  decide

end EchoServer
